import Mathlib

/-!
Shallow embedding of the editing core of the `fate` editor
(`fate/textview.py` and `fate/text.py`), together with proofs about the
claims of its specification.

Conventions:
* Text is a `List Char` (`Str`); Python slices `s[a:b]` become
  `(s.drop a).take (b - a)`, which matches Python's clamping behaviour for
  non-negative indices.
* Python loops are embedded as fuelled step functions; `none` means the
  loop did not finish within the given fuel, so a statement
  `∀ fuel, f fuel = none` expresses non-termination.
* Python `assert` statements and raised exceptions are embedded as
  `Except Err` error values at exactly the program points where they occur.
* Collaborator modules that are not part of the given sources
  (`selection.py`, `navigation.py`, `contract.py`) are modelled from the
  specification; each such definition carries a doc comment starting with
  "Modelled from the spec:".
-/

namespace Fate

/-- Characters of a text, in document order (Python `str`). -/
abbrev Str := List Char

/-- Modelled from the spec: an `Interval` is an ordered pair `(begin, end)`
of non-negative integers, half-open. (`selection.py` is not among the given
sources.) -/
abbrev Interval := Nat × Nat

/-- A substitution: an original-text interval together with its
replacement string. -/
abbrev Subst := Interval × Str

/-- Python slice `s[a:b]` for non-negative `a`, `b` (clamping, never
failing). -/
def sliceStr (s : Str) (a b : Nat) : Str := (s.drop a).take (b - a)

/-- Error taxonomy of the embedded code.  Each constructor corresponds to a
Python exception or a failing `assert` at a specific program point. -/
inductive Err where
  /-- `ValueError` for malformed viewport parameters. -/
  | invalidArgument : Err
  /-- `IndexError` raised by the explicit bounds guards of the windowed
  text (`PartialText`). -/
  | outOfRange : Err
  /-- `IndexError` raised by a plain out-of-range list or string index. -/
  | indexError : Err
  /-- The `assert content == original_content` in `StringText.transform`
  and a failing caller-supplied validation hook (the spec's
  `StaleTransformation`). -/
  | stale : Err
  /-- Mismatched replacement/selection counts and the internal
  `assert beg <= end` (the spec's `ContractViolation`). -/
  | contract : Err
  /-- The `assert required_length > len(vtext) // 2` self-check in
  `TextView._compute_text_from_view_interval` (line 320). -/
  | overshootAssert : Err
  /-- The mapping-length asserts in `_compute_text_from_view_interval`
  (lines 333-334) and `_compute_selection` (line 444). -/
  | lengthAssert : Err
  /-- The `_compute_selectionview_post` post-condition assert. -/
  | postAssert : Err
deriving DecidableEq

/-- Decidable equality for `Except` results, so that concrete runs of the
embedded code can be checked by `decide`. -/
instance {ε α : Type} [DecidableEq ε] [DecidableEq α] : DecidableEq (Except ε α) :=
  fun a b =>
    match a, b with
    | .ok a, .ok b =>
      if h : a = b then isTrue (by rw [h]) else isFalse fun hh => h (by injection hh)
    | .error a, .error b =>
      if h : a = b then isTrue (by rw [h]) else isFalse fun hh => h (by injection hh)
    | .ok _, .error _ => isFalse fun hh => Except.noConfusion hh
    | .error _, .ok _ => isFalse fun hh => Except.noConfusion hh

/-! ## Ordering of substitutions (Python tuple comparison) -/

/-- Python lexicographic comparison of strings (by code point). -/
def strLt : Str → Str → Bool
  | [], [] => false
  | [], _ :: _ => true
  | _ :: _, [] => false
  | a :: as, b :: bs => if a < b then true else if b < a then false else strLt as bs

/-- Python comparison of `(Interval, str)` pairs: lexicographic on
`(begin, end, replacement)`; the spec fixes Interval order as lexicographic
on `(begin, end)`. -/
def substLt (x y : Subst) : Bool :=
  if x.1.1 < y.1.1 then true
  else if y.1.1 < x.1.1 then false
  else if x.1.2 < y.1.2 then true
  else if y.1.2 < x.1.2 then false
  else strLt x.2 y.2

/-- Stable insertion of a substitution into an already sorted list: the new
element goes after all existing elements that are not strictly greater. -/
def insSubst (x : Subst) : List Subst → List Subst
  | [] => [x]
  | y :: ys => if substLt x y then x :: y :: ys else y :: insSubst x ys

/-- Python `list.sort()` on substitutions: a stable ascending sort under
the tuple order `substLt`. -/
def sortSubsts (l : List Subst) : List Subst := l.foldl (fun acc x => insSubst x acc) []

/-- `bisect.bisect_left`, binary search step (`lo`/`hi` bounds, fuelled;
the fuel passed by `bisectLeft` always suffices). -/
def bisectAux (a : List Subst) (key : Subst) : Nat → Nat → Nat → Nat
  | 0, lo, _ => lo
  | f + 1, lo, hi =>
    if lo < hi then
      let mid := (lo + hi) / 2
      if substLt (a.getD mid ((0, 0), [])) key then bisectAux a key f (mid + 1) hi
      else bisectAux a key f lo mid
    else lo

/-- `bisect.bisect_left(a, key)` as used on the global substitution list. -/
def bisectLeft (a : List Subst) (key : Subst) : Nat :=
  bisectAux a key (a.length + 1) 0 a.length

/-! ## Navigation collaborator (modelled from the spec) -/

/-- Modelled from the spec: the position at which the wrapped display line
beginning at `b` is completed, if it is: at the first newline within the
next `w` columns the next line begins just after it; otherwise, if a full
line of `w` columns fits inside the text, the next line begins `w` columns
further; otherwise the line beginning at `b` is not completed (`none`).
(`navigation.py` is not among the given sources; the spec describes
`countWrappedLines`, `moveNWrappedLinesDown` and `nextBeginOfWrappedLine`
as pure functions over column-wrapping, and its worked example with
`width=10, height=1` requires that an unterminated partial line counts as
zero completed wrapped lines, which fixes this reading.) -/
def nextLineStart (s : Str) (w b : Nat) : Option Nat :=
  match ((s.drop b).take w).findIdx? (fun c => c == '\n') with
  | some p => some (b + p + 1)
  | none => if b + w ≤ s.length then some (b + w) else none

/-- Fuelled iteration for `countWrappedLines`; the fuel passed by
`countWrappedLines` always suffices for `w > 0`. -/
def countAux (s : Str) (w : Nat) : Nat → Nat → Nat
  | 0, _ => 0
  | f + 1, b =>
    match nextLineStart s w b with
    | none => 0
    | some e => 1 + countAux s w f e

/-- Modelled from the spec: `countWrappedLines(text, width)` — number of
completed wrapped display lines of `text` at column width `width`. -/
def countWrappedLines (s : Str) (w : Nat) : Nat := countAux s w (s.length + 1) 0

/-- Modelled from the spec: `moveNWrappedLinesDown(text, width, from, n)` —
begin position of the wrapped line `n` lines below the one beginning at
`from`, clamped when fewer lines exist. -/
def moveNWrappedLinesDown (s : Str) (w : Nat) : Nat → Nat → Nat
  | b, 0 => b
  | b, n + 1 =>
    match nextLineStart s w b with
    | some e => if e < s.length then moveNWrappedLinesDown s w e n else b
    | none => b

/-- Modelled from the spec: `nextBeginOfWrappedLine(text, width, from)` —
begin of the next wrapped line after the one beginning at `from`; when no
further wrapped line exists it "fails" by returning `from` itself, which is
exactly the condition `required_length == beg_last_line` tested by the
caller in `_compute_text_from_view_interval`. -/
def nextBegOfWrappedLine (s : Str) (w b : Nat) : Nat :=
  (nextLineStart s w b).getD b

/-! ## Documents -/

/-- The concealment collaborator: a per-call local substitution list
(the effect of `generate_local_substitutions(beg, length)`) and the
pre-sorted global substitution list. -/
structure Conceal where
  localSubs : Nat → Nat → List Subst
  globalSubs : List Subst

/-- The document interface consumed by `TextView`: text, selection,
sparse highlighting table and the concealment collaborator. -/
structure Doc where
  text : Str
  selection : List Interval
  highlighting : Nat → Option Str
  conceal : Conceal

/-! ## The single-pass substitution merge
(`TextView._compute_text_from_orig_interval`) -/

/-- Loop state of the merge scan: view text built so far, the two cursors,
the two mapping arrays, the index into the substitution list, and whether
the loop was left by `break`. -/
structure MState where
  vtext : Str
  vpos : Nat
  opos : Nat
  vposToOpos : List Nat
  oposToVpos : List Nat
  substIdx : Nat
  brk : Bool
deriving DecidableEq

/-- Initial state of the merge scan over `[obeg, obeg + sl)`. -/
def initState (obeg : Nat) : MState :=
  { vtext := [], vpos := 0, opos := obeg, vposToOpos := [], oposToVpos := [],
    substIdx := 0, brk := false }

/-- One iteration of the `while opos < obeg + o_sample_length` loop of
`_compute_text_from_orig_interval` (lines 369-401), translated branch by
branch.  Note that Python's `min(sbeg - opos, o_sample_length - vpos)` and
`min(o_sample_length - (opos - obeg), len(otext) - (opos - obeg))` are kept
verbatim, including the second operand of the first `min` mixing view and
original coordinates and the `(opos - obeg)` offset bug of the second. -/
def mergeStep (otext : Str) (obeg sl : Nat) (subs : List Subst) (st : MState) : MState :=
  if subs.length ≤ st.substIdx then
    { st with
      vposToOpos := st.vposToOpos ++ List.range' st.opos
        (min (sl - (st.opos - obeg)) (otext.length - (st.opos - obeg))),
      oposToVpos := st.oposToVpos ++ List.range' st.vpos
        (min (sl - (st.opos - obeg)) (otext.length - (st.opos - obeg))),
      vtext := st.vtext ++ sliceStr otext st.opos
        (st.opos + min (sl - (st.opos - obeg)) (otext.length - (st.opos - obeg))),
      opos := st.opos + min (sl - (st.opos - obeg)) (otext.length - (st.opos - obeg)),
      vpos := st.vpos + min (sl - (st.opos - obeg)) (otext.length - (st.opos - obeg)),
      brk := true }
  else if st.opos < (subs.getD st.substIdx ((0, 0), [])).1.1 then
    { st with
      vposToOpos := st.vposToOpos ++ List.range' st.opos
        (min ((subs.getD st.substIdx ((0, 0), [])).1.1 - st.opos) (sl - st.vpos)),
      oposToVpos := st.oposToVpos ++ List.range' st.vpos
        (min ((subs.getD st.substIdx ((0, 0), [])).1.1 - st.opos) (sl - st.vpos)),
      vtext := st.vtext ++ sliceStr otext st.opos
        (st.opos + min ((subs.getD st.substIdx ((0, 0), [])).1.1 - st.opos) (sl - st.vpos)),
      opos := st.opos +
        min ((subs.getD st.substIdx ((0, 0), [])).1.1 - st.opos) (sl - st.vpos),
      vpos := st.vpos +
        min ((subs.getD st.substIdx ((0, 0), [])).1.1 - st.opos) (sl - st.vpos) }
  else
    { st with
      vposToOpos := st.vposToOpos ++
        List.replicate (subs.getD st.substIdx ((0, 0), [])).2.length st.opos,
      oposToVpos := st.oposToVpos ++
        List.replicate
          ((subs.getD st.substIdx ((0, 0), [])).1.2 -
            (subs.getD st.substIdx ((0, 0), [])).1.1) st.vpos,
      vtext := st.vtext ++ (subs.getD st.substIdx ((0, 0), [])).2,
      vpos := st.vpos + (subs.getD st.substIdx ((0, 0), [])).2.length,
      opos := st.opos +
        ((subs.getD st.substIdx ((0, 0), [])).1.2 -
          (subs.getD st.substIdx ((0, 0), [])).1.1),
      substIdx := st.substIdx + 1 }

/-- The loop guard, including the `break` flag of the final branch. -/
def mergeDone (obeg sl : Nat) (st : MState) : Bool :=
  st.brk || !(decide (st.opos < obeg + sl))

/-- The fuelled merge loop; `none` means the loop did not reach its exit
within `fuel` iterations. -/
def mergeLoop (otext : Str) (obeg sl : Nat) (subs : List Subst) : Nat → MState → Option MState
  | 0, st => if mergeDone obeg sl st then some st else none
  | f + 1, st =>
    if mergeDone obeg sl st then some st
    else mergeLoop otext obeg sl subs f (mergeStep otext obeg sl subs st)

/-- The substitution list the merge scan runs over: the local substitutions
for the queried range, plus the `bisect_left`-delimited slice of the global
list, sorted (lines 347-358). -/
def mergedSubs (c : Conceal) (obeg sl : Nat) : List Subst :=
  let first := bisectLeft c.globalSubs ((obeg, obeg), [])
  let last := bisectLeft c.globalSubs ((obeg + sl, obeg + sl), [])
  sortSubsts (c.localSubs obeg sl ++ ((c.globalSubs.drop first).take (last - first)))

/-- `TextView._compute_text_from_orig_interval(obeg, o_sample_length)`:
run the merge scan and append one sentinel entry to each mapping
(lines 405-407).  Returns `(viewText, origposToViewpos, viewposToOrigpos)`;
`none` when the scan does not terminate within `fuel` iterations. -/
def computeOrig (doc : Doc) (obeg sl fuel : Nat) : Option (Str × List Nat × List Nat) :=
  (mergeLoop doc.text obeg sl (mergedSubs doc.conceal obeg sl) fuel (initState obeg)).map
    fun st => (st.vtext, st.oposToVpos ++ [st.vtext.length], st.vposToOpos ++ [sl])

/-- Invariant of the merge-scan loop over `[obeg, obeg + n)`, under the
assumptions that the sampled range lies inside the text and that the
substitution list is contained in the range, well-formed and
chain-ordered: the cursor stays inside the range, each mapping array has
exactly one entry per consumed position of its coordinate space, and the
original cursor never passes the begin of the pending substitution. -/
def MInv (obeg n : Nat) (subs : List Subst) (st : MState) : Prop :=
  obeg ≤ st.opos ∧ st.opos ≤ obeg + n ∧
  st.oposToVpos.length + obeg = st.opos ∧
  st.vposToOpos.length = st.vtext.length ∧
  st.vpos = st.vtext.length ∧
  (∀ hj : st.substIdx < subs.length, st.opos ≤ (subs.get ⟨st.substIdx, hj⟩).1.1) ∧
  (st.brk = true → st.opos = obeg + n)

/-! ## The windowed-sampling screen computation
(`TextView._compute_text_from_view_interval`) -/

/-- The sample-doubling loop (lines 301-305): while the view text wraps
into fewer than `h` lines and original text remains, double the sample
length and recompute from scratch.  `ofuel` is the outer fuel, `fuel` the
fuel of each inner merge scan. -/
def sampleLoop (doc : Doc) (w h obeg fuel : Nat) :
    Nat → Nat → Str × List Nat × List Nat → Option (Nat × (Str × List Nat × List Nat))
  | 0, sl, cur =>
    if countWrappedLines cur.1 w < h ∧ obeg + sl < doc.text.length then none
    else some (sl, cur)
  | of + 1, sl, cur =>
    if countWrappedLines cur.1 w < h ∧ obeg + sl < doc.text.length then
      match computeOrig doc obeg (2 * sl) fuel with
      | none => none
      | some r => sampleLoop doc w h obeg fuel of (2 * sl) r
    else some (sl, cur)

/-- The exact-boundary snapping of lines 310-316: advance `height - 1`
wrapped-line boundaries, take the begin of the next wrapped line after
that, and fall back to the full view-text length when no further wrapped
line exists. -/
def snapRequired (vtext : Str) (w h : Nat) : Nat :=
  if nextBegOfWrappedLine vtext w (moveNWrappedLinesDown vtext w 0 (h - 1)) =
      moveNWrappedLinesDown vtext w 0 (h - 1) then vtext.length
  else nextBegOfWrappedLine vtext w (moveNWrappedLinesDown vtext w 0 (h - 1))

/-- `TextView._compute_text_from_view_interval` (lines 271-337): the
length-0 special case, the sample-doubling loop, exact snapping via the
navigation collaborator, the overshoot self-check assert (line 320), the
second sentinel append (lines 323-324), truncation of text and forward
mapping — the reverse mapping is returned at full oversampled length — and
the post-condition asserts (lines 333-334). -/
def computeScreenText (doc : Doc) (w h offset fuel ofuel : Nat) :
    Option (Except Err (Str × List Nat × List Nat)) :=
  if doc.text.length < offset then some (.error .invalidArgument)
  else if doc.text.length = offset then some (.ok ([], [0], [0]))
  else
    match computeOrig doc offset 1 fuel with
    | none => none
    | some r0 =>
      match sampleLoop doc w h offset fuel ofuel 1 r0 with
      | none => none
      | some (sl, (vtext, fwd, rev)) =>
        if snapRequired vtext w h ≤ vtext.length / 2 then some (.error .overshootAssert)
        else if (vtext.take (snapRequired vtext w h)).length ≠ snapRequired vtext w h then
          some (.error .lengthAssert)
        else if ((fwd ++ [vtext.length]).take (snapRequired vtext w h + 1)).length ≠
            snapRequired vtext w h + 1 then
          some (.error .lengthAssert)
        else
          some (.ok (vtext.take (snapRequired vtext w h),
            (fwd ++ [vtext.length]).take (snapRequired vtext w h + 1), rev ++ [sl]))

/-! ## Selection and highlighting projection -/

/-- Modelled from the spec: `Selection.add` inserts an interval preserving
the ordering/non-overlap invariant, merging adjacent or overlapping
intervals (`selection.py` is not among the given sources). -/
def selAdd : List Interval → Interval → List Interval
  | [], x => [x]
  | (b, e) :: rest, (xb, xe) =>
    if xe < b then (xb, xe) :: (b, e) :: rest
    else if e < xb then (b, e) :: selAdd rest (xb, xe)
    else selAdd rest (min b xb, max e xe)

/-- The post-condition `_compute_selectionview_post` (lines 163-165):
every produced view interval must satisfy
`0 ≤ vbeg ≤ vend ≤ len(viewText)`. -/
def selectionPost (sel : List Interval) (text : Str) : Bool :=
  sel.all fun itv => decide (itv.1 ≤ itv.2 ∧ itv.2 ≤ text.length)

/-- The body of the loop of `_compute_selection` for one document
selection interval (lines 449-462). -/
def selProjectOne (offset oVB oVE : Nat) (fwd : List Nat) (acc : List Interval)
    (itv : Interval) : Except Err (List Interval) :=
  if (itv.1 < oVE ∧ oVB < itv.2) ∨ (itv.1 = itv.2 ∧ itv.1 = oVB) ∨
      (itv.1 = itv.2 ∧ itv.2 = oVE) then
    let beg := max itv.1 oVB
    let en := min oVE itv.2
    if beg ≤ en then
      match fwd.get? (beg - offset), fwd.get? (en - offset) with
      | some vb, some ve => .ok (selAdd acc (vb, ve))
      | _, _ => .error .indexError
    else .error .contract
  else .ok acc

/-- `TextView._compute_selection` (lines 435-464): the mapping-length
assert, reading the projected window bounds from the first and last entry
of the reverse mapping, and the projection loop.  Deviation from Python:
`beg - offset` is natural subtraction whereas Python would index with a
negative number (wrapping from the end or raising); this differs only in
the degenerate `offset = len(text)` special-case path, which no theorem
below depends on. -/
def computeSelection (doc : Doc) (offset : Nat) (text : Str) (fwd rev : List Nat) :
    Except Err (List Interval) :=
  if fwd.length ≠ text.length + 1 then .error .lengthAssert
  else
    match rev with
    | [] => .error .indexError
    | r0 :: _ =>
      let oVB := r0
      let oVE := rev.getLastD 0
      doc.selection.foldlM (selProjectOne offset oVB oVE fwd) []

/-- `TextView._compute_highlighting` (lines 416-433): for each view
position, look up the reverse-mapped original position in the sparse
highlighting table, defaulting to the empty string. -/
def computeHighlighting (doc : Doc) (text : Str) (rev : List Nat) : List Str :=
  (List.range text.length).map fun i => (doc.highlighting (rev.getD i 0)).getD []

/-- A constructed view: the view text, the two mapping arrays, and the
selection and highlighting projections. -/
structure View where
  text : Str
  fwd : List Nat
  rev : List Nat
  selection : List Interval
  highlighting : List Str
deriving DecidableEq

/-- Assemble a view from the text/mapping triple: selection projection
(with its `@post` assert) followed by the highlighting projection, as in
`TextView.for_screen` (lines 236-239). -/
def buildView (doc : Doc) (offset : Nat) (tfr : Str × List Nat × List Nat) :
    Except Err View :=
  match computeSelection doc offset tfr.1 tfr.2.1 tfr.2.2 with
  | .error e => .error e
  | .ok selv =>
    if selectionPost selv tfr.1 then
      .ok { text := tfr.1, fwd := tfr.2.1, rev := tfr.2.2, selection := selv,
            highlighting := computeHighlighting doc tfr.1 tfr.2.2 }
    else .error .postAssert

/-- `TextView.for_screen` (lines 217-241): viewport validation followed by
text/mapping computation and the two projections. -/
def forScreen (doc : Doc) (w h offset fuel ofuel : Nat) : Option (Except Err View) :=
  if w = 0 ∨ h = 0 ∨ doc.text.length < offset then some (.error .invalidArgument)
  else
    match computeScreenText doc w h offset fuel ofuel with
    | none => none
    | some (.error e) => some (.error e)
    | some (.ok tfr) => some (buildView doc offset tfr)

/-! ## Text values and transformations (`fate/text.py`) -/

/-- Modelled from the spec: a `Transformation` carries the selection it
applies to, the content expected there at apply time, the replacement
strings (one per interval, in order), and an arbitrary caller-supplied
validation hook (`operation.py` is not among the given sources; this is
the interface `StringText.transform` consumes). -/
structure Transformation where
  selection : List Interval
  originalContent : List Str
  replacements : List Str
  validateOk : Str → Bool

/-- Modelled from the spec: `Selection.partition(text)` — ordered runs
alternating unselected/selected, covering `[0, len(text))` exactly once;
adjacent empty runs are represented. -/
def partitionAux (len : Nat) : Nat → List Interval → List (Bool × Interval)
  | pos, [] => [(false, (pos, len))]
  | pos, (b, e) :: rest => (false, (pos, b)) :: (true, (b, e)) :: partitionAux len e rest

/-- Modelled from the spec: `Selection.partition`. -/
def selPartition (sel : List Interval) (len : Nat) : List (Bool × Interval) :=
  partitionAux len 0 sel

/-- The run walk of `StringText.transform` (lines 52-59): unselected runs
are copied through `getSlice`, selected runs consume the next replacement;
running out of replacements is the `replacements[count]` `IndexError`
(the spec's `ContractViolation`). -/
def applyRuns (getSlice : Interval → Str) :
    List (Bool × Interval) → List Str → Except Err Str
  | [], _ => .ok []
  | (true, _) :: _, [] => .error .contract
  | (true, _) :: rest, r :: rs => (applyRuns getSlice rest rs).map fun t => r ++ t
  | (false, itv) :: rest, reps => (applyRuns getSlice rest reps).map fun t => getSlice itv ++ t

/-- `StringText.transform` (lines 38-61), parameterized by the interval
read `getSlice`, the text value handed to the validation hook and the text
length used by `partition`; Python's dynamic dispatch picks these from the
receiver, which is how `PartialText` reuses this code. -/
def transformWith (getSlice : Interval → Str) (textVal : Str) (textLen : Nat)
    (t : Transformation) : Except Err Str :=
  if t.selection.map getSlice ≠ t.originalContent then .error .stale
  else if t.validateOk textVal = false then .error .stale
  else applyRuns getSlice (selPartition t.selection textLen) t.replacements

/-- `StringText.transform` on a full text: `self[interval]` is a plain
slice. -/
def strTransform (text : Str) (t : Transformation) : Except Err Str :=
  transformWith (fun itv => sliceStr text itv.1 itv.2) text text.length t

/-- `PartialText`: a windowed text over `origin` restricted to
`[wbeg, wend)`; its string value is the slice (`text.py` line 73). -/
structure WindowedText where
  origin : Str
  wbeg : Nat
  wend : Nat

/-- The string content the windowed text stores. -/
def WindowedText.content (w : WindowedText) : Str := sliceStr w.origin w.wbeg w.wend

/-- `PartialText.__contains__` for an interval (line 82):
`beg ≤ b ≤ e ≤ end`. -/
def winContains (w : WindowedText) (itv : Interval) : Bool :=
  decide (w.wbeg ≤ itv.1 ∧ itv.1 ≤ itv.2 ∧ itv.2 ≤ w.wend)

/-- `PartialText.__getitem__` for an `int` (lines 86-90): the containment
guard `beg ≤ item ≤ end` raises `IndexError` (`outOfRange`), then the
underlying string is indexed at `item - beg` (which can itself raise). -/
def winGetInt (w : WindowedText) (i : Nat) : Except Err Char :=
  if w.wbeg ≤ i ∧ i ≤ w.wend then
    match w.content.get? (i - w.wbeg) with
    | some c => .ok c
    | none => .error .indexError
  else .error .outOfRange

/-- `PartialText.__getitem__` for an `Interval` (lines 91-98) with the
default `failfast=False`: no bounds check at all; both endpoints are
shifted by `beg` and clamped below at 0 (`max(0, ·)` is natural
subtraction) and the slice clamps the end. -/
def winGetItv (w : WindowedText) (itv : Interval) : Except Err Str :=
  .ok (sliceStr w.content (itv.1 - w.wbeg) (itv.2 - w.wbeg))

/-- `PartialText.transform` (lines 103-114): check every selection
interval against the window bounds, then run `StringText.transform` on the
windowed value — and discard its result: the method body has no `return`
statement, so Python returns `None` (embedded as `none`). -/
def winTransform (w : WindowedText) (t : Transformation) :
    Except Err (Option Str) :=
  match t.selection.find? (fun itv => !winContains w itv) with
  | some _ => .error .outOfRange
  | none =>
    (transformWith (fun itv => sliceStr w.content (itv.1 - w.wbeg) (itv.2 - w.wbeg))
        w.content w.content.length t).map fun _ => none

/-! ## Concrete example documents used by the theorems -/

/-- The spec's worked example: text `"abcdef"`, one global substitution
`([1,3), "X")`, no local substitutions. -/
def c1doc : Doc :=
  { text := "abcdef".data, selection := [],
    highlighting := fun _ => none,
    conceal := { localSubs := fun _ _ => [], globalSubs := [((1, 3), "X".data)] } }

/-- The view the screen-mode computation actually produces on `c1doc` with
`width=10, height=1, offset=0`. -/
def c1view : View :=
  { text := "aXdef".data, fwd := [0, 1, 1, 2, 3, 4], rev := [0, 1, 3, 4, 5, 8, 8],
    selection := [], highlighting := [[], [], [], [], []] }

/-- Same shape as the spec's worked example on different text, used for
the refinement counterexample. -/
def c2doc : Doc :=
  { text := "uvwxyz".data, selection := [],
    highlighting := fun _ => none,
    conceal := { localSubs := fun _ _ => [], globalSubs := [((1, 3), "J".data)] } }

/-- Document on which the inner substitution-merge scan never terminates:
over the sample `[0,4)` the first substitution expands one character into
four view characters, making `vpos = o_sample_length`, after which
`olength = min(sbeg - opos, o_sample_length - vpos) = 0` and the state
repeats forever. -/
def c3doc : Doc :=
  { text := "abcdef".data, selection := [],
    highlighting := fun _ => none,
    conceal := { localSubs := fun _ _ => [],
                 globalSubs := [((0, 1), "XXXX".data), ((3, 4), "Y".data)] } }

/-- The merge-scan state of `c3doc`'s sample `[0,4)` after consuming the
first substitution; `mergeStep` maps it to itself. -/
def c3stuck : MState :=
  { vtext := "XXXX".data, vpos := 4, opos := 1, vposToOpos := [0, 0, 0, 0],
    oposToVpos := [0], substIdx := 1, brk := false }

/-- Document on which the overshoot self-check assert fails: one
substitution whose 21-character replacement makes the very first 1-character
probe wrap into two full lines at width 10, so the snapped required length
is 10 while `len(vtext) // 2` is also 10. -/
def c4doc : Doc :=
  { text := "ab".data, selection := [],
    highlighting := fun _ => none,
    conceal := { localSubs := fun _ _ => [],
                 globalSubs := [((0, 1), List.replicate 21 'R')] } }

/-- A windowed text spanning the whole of `"abcdef"`. -/
def c5win : WindowedText := { origin := "abcdef".data, wbeg := 0, wend := 6 }

/-- A valid transformation replacing `"b"` at `[1,2)` with `"Z"`. -/
def c5t : Transformation :=
  { selection := [(1, 2)], originalContent := ["b".data], replacements := ["Z".data],
    validateOk := fun _ => true }

/-- A windowed text restricted to `[2,6)` of `"abcdef"` (content
`"cdef"`). -/
def c7win : WindowedText := { origin := "abcdef".data, wbeg := 2, wend := 6 }

/-- Document on which the selection projection produces a view interval
beyond the view text: the substitution `([5,6), "WWWW")` expands the view
text to 11 characters of which only 6 are required at width 3, height 2,
and the truncated forward mapping still contains the view position 9 for
original position 6. -/
def c8doc : Doc :=
  { text := "abcdefgh".data, selection := [(5, 6)],
    highlighting := fun _ => none,
    conceal := { localSubs := fun _ _ => [],
                 globalSubs := [((5, 6), "WWWW".data)] } }

/-- Document violating the universal mapping-count claim: a substitution
`([0,5), "X")` reaching far beyond the sampled range `[0,1)`. -/
def c9bad : Doc :=
  { text := "abcdef".data, selection := [], highlighting := fun _ => none,
    conceal := { localSubs := fun _ _ => [], globalSubs := [((0, 5), "X".data)] } }

/-- A stale transformation: it expects `"q"` at `[1,2)` of `"abcdef"`,
where the actual content is `"b"`. -/
def c6bad : Transformation :=
  { selection := [(1, 2)], originalContent := ["q".data], replacements := ["Z".data],
    validateOk := fun _ => true }

/-- `c1doc` with the spec's example highlighting table `(1 ↦ "kw")`. -/
def c10doc : Doc :=
  { text := "abcdef".data, selection := [],
    highlighting := fun p => if p = 1 then some "kw".data else none,
    conceal := { localSubs := fun _ _ => [], globalSubs := [((1, 3), "X".data)] } }

/-- The view `forScreen` produces on `c10doc` with
`width=10, height=1, offset=0`. -/
def c10view : View :=
  { text := "aXdef".data, fwd := [0, 1, 1, 2, 3, 4], rev := [0, 1, 3, 4, 5, 8, 8],
    selection := [], highlighting := [[], "kw".data, [], [], []] }

/-! ## Theorems for the claims -/

/-- Claim C1, counterexample.  On text `"abcdef"` with the single global
substitution `([1,3), "X")`, width 10, height 1, offset 0, the screen-mode
computation does produce view text `"aXdef"`, but its forward mapping is
`[0,1,1,2,3,4]` (the sentinel is cut off by the truncation to
`required_length + 1` view-length entries, so original position 6 has no
entry), and its reverse mapping is `[0,1,3,4,5,8,8]`: the sentinel is the
final doubled sample length 8, not 6, and it is appended twice (once by
`_compute_text_from_orig_interval` and once more by
`_compute_text_from_view_interval`), with no truncation.  The claimed
mappings `[0,1,1,2,3,4]` with sentinel `5` and `[0,1,3,4,5]` with sentinel
`6` are exactly what the explicit-interval path over `[0,6)` returns, not
the screen-mode path. -/
theorem c1_counterexample :
    forScreen c1doc 10 1 0 32 16 = some (.ok c1view) ∧
    computeOrig c1doc 0 6 32 =
      some ("aXdef".data, [0, 1, 1, 2, 3, 4, 5], [0, 1, 3, 4, 5, 6]) ∧
    c1view.fwd ≠ [0, 1, 1, 2, 3, 4, 5] ∧ c1view.rev ≠ [0, 1, 3, 4, 5, 6] := by
  decide

/-- Claim C1, amended.  For document text `"abcdef"` with the single
global substitution `([1,3), "X")` and no local substitutions, the
screen-mode view with width 10, height 1, offset 0 has view text
`"aXdef"`, forward mapping `[0,1,1,2,3,4]` (entries for original
positions 0..5 only; the sentinel entry is truncated away together with
everything beyond `required_length + 1` entries), and reverse mapping
`[0,1,3,4,5,8,8]` (entries for view positions 0..4 followed by the
sentinel 8 — the final sample length — appended twice and never
truncated). -/
theorem c1_amended :
    forScreen c1doc 10 1 0 32 16 = some (.ok c1view) := by
  decide

/-- Claim C4.  The self-check assertion
`required_length > len(vtext) // 2` does fail: with text `"ab"`, the
global substitution `([0,1), "R"*21)`, width 10, height 1, offset 0, the
first 1-character probe already yields a 21-character view text wrapping
into two full lines, the snapped required length is 10, and
`10 > 21 // 2 = 10` is false, so screen-mode view construction aborts with
the failed assert. -/
theorem c4_assert_fails :
    forScreen c4doc 10 1 0 32 16 = some (.error .overshootAssert) ∧
    computeOrig c4doc 0 1 32 =
      some (List.replicate 21 'R', [0, 21], List.replicate 21 0 ++ [1]) ∧
    nextBegOfWrappedLine (List.replicate 21 'R') 10 0 = 10 ∧
    (List.replicate 21 'R').length / 2 = 10 := by
  decide

/-- Claim C5.  On a windowed text over the whole of `"abcdef"` and a valid
transformation replacing `[1,2)` by `"Z"`, `PartialText.transform`
validates and applies the transformation but returns `None` (its body has
no `return` statement), while the underlying `StringText.transform` run on
the same content returns the new text `"aZcdef"` that the windowed
transform discards. -/
theorem c5_returns_none :
    winTransform c5win c5t = .ok none ∧
    strTransform "abcdef".data c5t = .ok "aZcdef".data := by
  decide

/-- Claim C7, counterexample.  On the windowed text `[2,6)` of
`"abcdef"`, the interval lookup `[0,3)` does not fail: it silently returns
`"c"`, the content of `[2,3)` — the interval's begin has been clamped up
to the window's begin (and the result is not the content of `[0,3)`). -/
theorem c7_counterexample :
    winGetItv c7win (0, 3) = .ok "c".data ∧
    "c".data = sliceStr c7win.origin 2 3 ∧
    "c".data ≠ sliceStr c7win.origin 0 3 := by
  decide

/-- Claim C8.  The selection-projection post-condition
`0 ≤ vbeg ≤ vend ≤ len(viewText)` is violated: on text `"abcdefgh"` with
the global substitution `([5,6), "WWWW")`, width 3, height 2, offset 0 and
document selection `{(5,6)}`, the view text is `"abcdeW"` (length 6) but
the projection produces the view interval `(5,9)`, because the truncated
forward mapping `[0,1,2,3,4,5,9]` still holds the untruncated view
position 9 for original position 6, and the reverse mapping's oversampled
last entry 8 lets the interval pass the window test.  The code's own
`@post` assert fails. -/
theorem c8_post_violated :
    computeScreenText c8doc 3 2 0 32 16 =
      some (.ok ("abcdeW".data, [0, 1, 2, 3, 4, 5, 9],
        [0, 1, 2, 3, 4, 5, 5, 5, 5, 6, 7, 8, 8])) ∧
    computeSelection c8doc 0 "abcdeW".data [0, 1, 2, 3, 4, 5, 9]
      [0, 1, 2, 3, 4, 5, 5, 5, 5, 6, 7, 8, 8] = .ok [(5, 9)] ∧
    selectionPost [(5, 9)] "abcdeW".data = false ∧
    forScreen c8doc 3 2 0 32 16 = some (.error .postAssert) := by
  decide

/-- Claim C9, counterexample.  The merge over `[0,1)` of `"abcdef"` with
the global substitution `([0,5), "X")` returns a forward mapping with 6
entries `[0,0,0,0,0,1]`, not `n + 1 = 2`: a substitution reaching beyond
the sampled range adds one forward entry per original position of its
whole interval. -/
theorem c9_counterexample :
    computeOrig c9bad 0 1 32 = some ("X".data, [0, 0, 0, 0, 0, 1], [0, 1]) ∧
    ([0, 0, 0, 0, 0, 1] : List Nat).length ≠ 1 + 1 := by
  decide

/-- Claim C2, counterexample.  On text `"uvwxyz"` with the global
substitution `([1,3), "J")`, width 10, height 1, offset 0, the screen-mode
computation returns the reverse mapping `[0,1,3,4,5,8,8]` (7 entries),
while the single-pass computation over the same final original interval
`[0,8)` returns the reverse mapping `[0,1,3,4,5,8]`, whose restriction to
the final length (`take (5+1)`) is `[0,1,3,4,5,8]` (6 entries): the
screen-mode reverse mapping is not the restricted single-pass one — it is
kept at full oversampled length and carries one extra sentinel copy. -/
theorem c2_counterexample :
    computeScreenText c2doc 10 1 0 32 16 =
      some (.ok ("uJxyz".data, [0, 1, 1, 2, 3, 4], [0, 1, 3, 4, 5, 8, 8])) ∧
    computeOrig c2doc 0 8 32 =
      some ("uJxyz".data, [0, 1, 1, 2, 3, 4, 5], [0, 1, 3, 4, 5, 8]) ∧
    ([0, 1, 3, 4, 5, 8, 8] : List Nat) ≠ List.take (5 + 1) [0, 1, 3, 4, 5, 8] := by
  decide

/-- On `c3doc`'s sample `[0,4)`, the merge scan reaches the state
`c3stuck` and `mergeStep` leaves it unchanged, so the loop never finishes,
whatever the fuel. -/
lemma c3_mergeLoop_stuck (f : Nat) :
    mergeLoop c3doc.text 0 4 (mergedSubs c3doc.conceal 0 4) f c3stuck = none := by
  induction f with
  | zero => decide
  | succ f ih =>
    have h1 : mergeDone 0 4 c3stuck = false := by decide
    have h2 : mergeStep c3doc.text 0 4 (mergedSubs c3doc.conceal 0 4) c3stuck = c3stuck := by
      decide
    simp only [mergeLoop, h1, Bool.false_eq_true, if_false, h2]
    exact ih

/-- Claim C3.  The inner left-to-right substitution-merge scan does not
always terminate: on text `"abcdef"` with global substitutions
`([0,1), "XXXX")` and `([3,4), "Y")`, the scan over `[0,4)` reaches the
state where `opos = 1`, `vpos = 4` and the next substitution starts at 3;
there `olength = min(3 - 1, 4 - 4) = 0`, nothing advances, and the loop
repeats the same state forever.  The single-pass computation over `[0,4)`
therefore returns no result for any fuel, and the screen-mode computation
(width 10, height 2, offset 0), which reaches sample length 4 by doubling,
never finishes either. -/
theorem c3_divergence :
    (∀ fuel, computeOrig c3doc 0 4 fuel = none) ∧
    forScreen c3doc 10 2 0 32 16 = none := by
  constructor
  · intro fuel
    cases fuel with
    | zero => decide
    | succ f =>
      have h0 : mergeDone 0 4 (initState 0) = false := by decide
      have h2 : mergeStep c3doc.text 0 4 (mergedSubs c3doc.conceal 0 4) (initState 0) =
          c3stuck := by decide
      simp only [computeOrig, mergeLoop, h0, Bool.false_eq_true, if_false, h2,
        c3_mergeLoop_stuck f, Option.map_none']
  · decide

/-- The run walk of a transformation never fails with the stale-content
error: its only failure is running out of replacement strings. -/
lemma applyRuns_ne_stale (getSlice : Interval → Str) :
    ∀ (runs : List (Bool × Interval)) (reps : List Str),
      applyRuns getSlice runs reps ≠ .error .stale := by
  intro runs
  induction runs with
  | nil => intro reps h; simp [applyRuns] at h
  | cons hd tl ih =>
    obtain ⟨inSel, itv⟩ := hd
    intro reps h
    cases inSel with
    | false =>
      rw [applyRuns] at h
      cases happ : applyRuns getSlice tl reps with
      | error e => rw [happ] at h; simp [Except.map] at h; exact ih reps (by rw [happ, h])
      | ok v => rw [happ] at h; simp [Except.map] at h
    | true =>
      cases reps with
      | nil => rw [applyRuns] at h; simp at h
      | cons r rs =>
        rw [applyRuns] at h
        cases happ : applyRuns getSlice tl rs with
        | error e => rw [happ] at h; simp [Except.map] at h; exact ih rs (by rw [happ, h])
        | ok v => rw [happ] at h; simp [Except.map] at h

/-- Claim C6.  `StringText.transform` fails with the stale-content error
exactly when the content currently addressed by the transformation's
selection differs from its recorded original content, or its
caller-supplied validation hook fails.  (The embedding is pure, so a
failing run produces no new text value and the input is untouched by
construction.) -/
theorem c6_stale_iff (text : Str) (t : Transformation) :
    strTransform text t = .error .stale ↔
      t.selection.map (fun itv => sliceStr text itv.1 itv.2) ≠ t.originalContent ∨
        t.validateOk text = false := by
  unfold strTransform transformWith
  split_ifs with h1 h2
  · simp [h1]
  · simp [h2]
  · constructor
    · intro h; exact absurd h (applyRuns_ne_stale _ _ _)
    · intro h
      rcases h with h | h
      · exact absurd h h1
      · exact absurd h h2

/-- Witness for claim C6: a transformation whose recorded original content
(`"q"`) differs from the actual content (`"b"`) fails with the
stale-content error. -/
theorem c6_stale_iff_witness :
    strTransform "abcdef".data c6bad = .error .stale :=
  (c6_stale_iff "abcdef".data c6bad).mpr (Or.inl (by decide))

/-- Claim C7, amended.  On a windowed text with bounds `[wbeg, wend)`,
indexing by an absolute integer position outside the bounds always fails
(the explicit guard raises for positions strictly outside, and the
underlying string lookup fails at the exclusive end), while indexing by an
interval (with the default `failfast=False`) never fails at all: both
endpoints are shifted and clamped below to the window's begin, and the
slice clamps the end above — in particular the interval's begin is clamped
whenever it lies before the window. -/
theorem c7_amended (w : WindowedText) :
    (∀ i, i < w.wbeg ∨ w.wend ≤ i → (winGetInt w i).isOk = false) ∧
    (∀ b e, winGetItv w (b, e) =
      .ok (sliceStr w.content (b - w.wbeg) (e - w.wbeg))) := by
  constructor
  · intro i hi
    unfold winGetInt
    split_ifs with h
    · have hlen : w.content.length ≤ i - w.wbeg := by
        have hc : w.content.length ≤ w.wend - w.wbeg := by
          unfold WindowedText.content sliceStr
          simp [List.length_take]
        omega
      rw [List.get?_eq_none.mpr hlen]
      rfl
    · rfl
  · intro b e
    rfl

/-- Witness for the amended claim C7 at the window `[2,6)` of `"abcdef"`:
position 0 lies before the window and its lookup fails; the interval
`[0,3)` is looked up as the clamped slice (window content positions
`[0,1)`, i.e. text `"c"`). -/
theorem c7_amended_witness :
    (winGetInt c7win 0).isOk = false ∧
    winGetItv c7win (0, 3) =
      .ok (sliceStr c7win.content (0 - c7win.wbeg) (3 - c7win.wbeg)) :=
  ⟨(c7_amended c7win).1 0 (by decide), (c7_amended c7win).2 0 3⟩

/-- Loop invariant of the sample-doubling loop: the current probe is
always exactly the single-pass computation at the current sample length,
so the loop's final probe is the single-pass computation at the final
sample length. -/
lemma sampleLoop_orig (doc : Doc) (w h obeg fuel : Nat) :
    ∀ (ofuel sl : Nat) (cur out : Str × List Nat × List Nat) (slOut : Nat),
      computeOrig doc obeg sl fuel = some cur →
      sampleLoop doc w h obeg fuel ofuel sl cur = some (slOut, out) →
      computeOrig doc obeg slOut fuel = some out := by
  intro ofuel
  induction ofuel with
  | zero =>
    intro sl cur out slOut hc hs
    rw [sampleLoop] at hs
    split_ifs at hs
    simp only [Option.some.injEq, Prod.mk.injEq] at hs
    obtain ⟨rfl, rfl⟩ := hs
    exact hc
  | succ f ih =>
    intro sl cur out slOut hc hs
    rw [sampleLoop] at hs
    split_ifs at hs
    · cases hc2 : computeOrig doc obeg (2 * sl) fuel with
      | none => simp only [hc2] at hs; cases hs
      | some r => simp only [hc2] at hs; exact ih (2 * sl) r out slOut hc2 hs
    · simp only [Option.some.injEq, Prod.mk.injEq] at hs
      obtain ⟨rfl, rfl⟩ := hs
      exact hc

/-- Claim C2, amended.  Whenever the screen-mode computation completes
with a result (and the viewport is not the degenerate empty remainder),
there is a final sample length `sl` such that the single-pass computation
over `[offset, offset + sl)` yields a triple `(V, F, R)` with: the view
text equal to `V` truncated to the final length; the forward mapping equal
to `F` with one more sentinel appended and truncated to final length + 1;
and the reverse mapping equal to `R` with one more copy of the sentinel
`sl` appended, not truncated.  (The literal claim fails only on the
reverse mapping, which keeps its full oversampled length and receives the
sentinel twice.) -/
theorem c2_amended (doc : Doc) (w h offset fuel ofuel : Nat) (text : Str)
    (fwd rev : List Nat)
    (hrun : computeScreenText doc w h offset fuel ofuel = some (.ok (text, fwd, rev)))
    (hoff : offset < doc.text.length) :
    ∃ sl V F R, computeOrig doc offset sl fuel = some (V, F, R) ∧
      text = V.take text.length ∧
      fwd = (F ++ [V.length]).take (text.length + 1) ∧
      rev = R ++ [sl] := by
  unfold computeScreenText at hrun
  split_ifs at hrun with h1 h2
  · exact absurd h1 (by omega)
  · exact absurd h2 (by omega)
  · cases hc0 : computeOrig doc offset 1 fuel with
    | none => simp only [hc0] at hrun; cases hrun
    | some r0 =>
      simp only [hc0] at hrun
      cases hsl : sampleLoop doc w h offset fuel ofuel 1 r0 with
      | none => simp only [hsl] at hrun; cases hrun
      | some pout =>
        simp only [hsl] at hrun
        obtain ⟨sl, V, F, R⟩ := pout
        have hco : computeOrig doc offset sl fuel = some (V, F, R) :=
          sampleLoop_orig doc w h offset fuel ofuel 1 r0 (V, F, R) sl hc0 hsl
        split_ifs at hrun with hov hl1 hl2
        · cases hrun
        · cases hrun
        · cases hrun
        · simp only [Option.some.injEq, Except.ok.injEq, Prod.mk.injEq] at hrun
          obtain ⟨ht, hf, hr⟩ := hrun
          have hsnap : (V.take (snapRequired V w h)).length = snapRequired V w h :=
            not_ne_iff.mp hl1
          have hlen : text.length = snapRequired V w h := by
            rw [← ht]
            exact hsnap
          refine ⟨sl, V, F, R, hco, ?_, ?_, ?_⟩
          · rw [hlen]
            exact ht.symm
          · rw [hlen]
            exact hf.symm
          · exact hr.symm

/-- Witness for the amended claim C2 at the spec's worked example: the
screen-mode output on `"abcdef"` with substitution `([1,3), "X")`, width
10, height 1, offset 0 is the single-pass output over `[0,8)` truncated as
described. -/
theorem c2_amended_witness :
    ∃ sl V F R, computeOrig c1doc 0 sl 32 = some (V, F, R) ∧
      "aXdef".data = V.take "aXdef".data.length ∧
      ([0, 1, 1, 2, 3, 4] : List Nat) =
        (F ++ [V.length]).take ("aXdef".data.length + 1) ∧
      ([0, 1, 3, 4, 5, 8, 8] : List Nat) = R ++ [sl] :=
  c2_amended c1doc 10 1 0 32 16 "aXdef".data [0, 1, 1, 2, 3, 4]
    [0, 1, 3, 4, 5, 8, 8] (by decide) (by decide)

/-- One `mergeStep` preserves the invariant (for a not-yet-done state). -/
lemma mergeStep_inv (otext : Str) (obeg n : Nat) (subs : List Subst)
    (hlen : obeg + n ≤ otext.length)
    (hsub : ∀ s ∈ subs, obeg ≤ s.1.1 ∧ s.1.1 ≤ s.1.2 ∧ s.1.2 ≤ obeg + n)
    (hchain : List.Chain' (fun a b => a.1.2 ≤ b.1.1) subs)
    (st : MState) (hinv : MInv obeg n subs st)
    (hnd : mergeDone obeg n st = false) :
    MInv obeg n subs (mergeStep otext obeg n subs st) := by
  obtain ⟨h1, h2, h3, h4, h5, h6, h7⟩ := hinv
  simp only [mergeDone, Bool.or_eq_false_iff, Bool.not_eq_false', decide_eq_true_eq]
    at hnd
  obtain ⟨hbrk, hlt⟩ := hnd
  unfold mergeStep
  split_ifs with hcase1 hcase2
  · -- final branch: no substitutions left, copy the rest and break
    refine ⟨by simp; omega, by simp; omega, by simp [List.length_append]; omega,
      ?_, ?_, ?_, ?_⟩
    · simp only [List.length_append, List.length_range', sliceStr, List.length_take,
        List.length_drop]
      omega
    · simp only [List.length_append, sliceStr, List.length_take, List.length_drop]
      omega
    · intro hj
      exact absurd hj (by simp; omega)
    · intro _
      simp only
      omega
  · -- copy branch: verbatim text before the pending substitution
    have hidx : st.substIdx < subs.length := by omega
    have hgd : subs.getD st.substIdx ((0, 0), []) = subs.get ⟨st.substIdx, hidx⟩ := by
      rw [List.getD_eq_get?, List.get?_eq_get hidx]
      rfl
    rw [hgd] at hcase2
    have hmem := List.get_mem subs st.substIdx hidx
    obtain ⟨hb1, hb2, hb3⟩ := hsub _ hmem
    have hcur := h6 hidx
    refine ⟨by simp; omega, ?_, by simp [List.length_append]; omega, ?_, ?_, ?_, ?_⟩
    · simp only [hgd]
      omega
    · simp only [hgd, List.length_append, List.length_range', sliceStr,
        List.length_take, List.length_drop]
      omega
    · simp only [hgd, List.length_append, sliceStr, List.length_take, List.length_drop]
      omega
    · intro hj
      simp only [hgd] at hj ⊢
      omega
    · intro hfalse
      rw [hbrk] at hfalse
      cases hfalse
  · -- concealed branch: consume the pending substitution
    have hidx : st.substIdx < subs.length := by omega
    have hgd : subs.getD st.substIdx ((0, 0), []) = subs.get ⟨st.substIdx, hidx⟩ := by
      rw [List.getD_eq_get?, List.get?_eq_get hidx]
      rfl
    rw [hgd] at hcase2
    have hmem := List.get_mem subs st.substIdx hidx
    obtain ⟨hb1, hb2, hb3⟩ := hsub _ hmem
    have hcur := h6 hidx
    have hopos : st.opos = (subs.get ⟨st.substIdx, hidx⟩).1.1 := by omega
    refine ⟨by simp; omega, ?_, ?_, ?_, ?_, ?_, ?_⟩
    · simp only [hgd]
      omega
    · simp only [hgd, List.length_append, List.length_replicate]
      omega
    · simp only [hgd, List.length_append, List.length_replicate]
      omega
    · simp only [hgd, List.length_append, List.length_replicate]
      omega
    · intro hj
      simp only [hgd] at hj ⊢
      have hj' : st.substIdx + 1 < subs.length := hj
      have hch := List.chain'_iff_get.mp hchain st.substIdx (by omega)
      omega
    · intro hfalse
      rw [hbrk] at hfalse
      cases hfalse

/-- The merge loop preserves the invariant and, on success, ends in a
done state. -/
lemma mergeLoop_inv (otext : Str) (obeg n : Nat) (subs : List Subst)
    (hlen : obeg + n ≤ otext.length)
    (hsub : ∀ s ∈ subs, obeg ≤ s.1.1 ∧ s.1.1 ≤ s.1.2 ∧ s.1.2 ≤ obeg + n)
    (hchain : List.Chain' (fun a b => a.1.2 ≤ b.1.1) subs) :
    ∀ (fuel : Nat) (st st' : MState), MInv obeg n subs st →
      mergeLoop otext obeg n subs fuel st = some st' →
      MInv obeg n subs st' ∧ mergeDone obeg n st' = true := by
  intro fuel
  induction fuel with
  | zero =>
    intro st st' hinv hl
    rw [mergeLoop] at hl
    split_ifs at hl with hd
    injection hl with hl
    subst hl
    exact ⟨hinv, hd⟩
  | succ f ih =>
    intro st st' hinv hl
    rw [mergeLoop] at hl
    split_ifs at hl with hd
    · injection hl with hl
      subst hl
      exact ⟨hinv, hd⟩
    · have hd' : mergeDone obeg n st = false := by
        cases hdd : mergeDone obeg n st
        · rfl
        · exact absurd hdd hd
      exact ih _ st' (mergeStep_inv otext obeg n subs hlen hsub hchain st hinv hd') hl

/-- Claim C9, amended.  Whenever the single-pass merge over
`[obeg, obeg + n)` completes, provided the sampled range lies within the
text and every merged substitution is a well-formed interval contained in
the range, with the merged list chain-ordered (non-overlapping in order),
the forward mapping has exactly one entry per original position of the
range plus one sentinel equal to the view-text length (`n + 1` entries in
total), and the reverse mapping has exactly one entry per view position
plus one sentinel equal to `n`.  (Without the containment hypothesis the
counts fail, see the counterexample; without the completion hypothesis the
scan may not terminate at all, see claim C3.) -/
theorem c9_amended (doc : Doc) (obeg n fuel : Nat) (V : Str) (F R : List Nat)
    (hlen : obeg + n ≤ doc.text.length)
    (hsub : ∀ s ∈ mergedSubs doc.conceal obeg n,
      obeg ≤ s.1.1 ∧ s.1.1 ≤ s.1.2 ∧ s.1.2 ≤ obeg + n)
    (hchain : List.Chain' (fun a b => a.1.2 ≤ b.1.1) (mergedSubs doc.conceal obeg n))
    (hrun : computeOrig doc obeg n fuel = some (V, F, R)) :
    F.length = n + 1 ∧ F.getLast? = some V.length ∧
    R.length = V.length + 1 ∧ R.getLast? = some n := by
  unfold computeOrig at hrun
  cases hml : mergeLoop doc.text obeg n (mergedSubs doc.conceal obeg n) fuel
      (initState obeg) with
  | none => rw [hml] at hrun; cases hrun
  | some st =>
    rw [hml] at hrun
    simp only [Option.map_some', Option.some.injEq, Prod.mk.injEq] at hrun
    obtain ⟨hV, hF, hR⟩ := hrun
    have hinit : MInv obeg n (mergedSubs doc.conceal obeg n) (initState obeg) := by
      refine ⟨le_refl _, by simp [initState], by simp [initState], by simp [initState],
        by simp [initState], ?_, ?_⟩
      · intro hj
        have hmem := List.get_mem (mergedSubs doc.conceal obeg n) 0 hj
        exact (hsub _ hmem).1
      · intro hfalse
        simp [initState] at hfalse
    obtain ⟨hinv, hdone⟩ :=
      mergeLoop_inv doc.text obeg n (mergedSubs doc.conceal obeg n) hlen hsub hchain
        fuel (initState obeg) st hinit hml
    obtain ⟨h1, h2, h3, h4, h5, h6, h7⟩ := hinv
    have hend : st.opos = obeg + n := by
      simp only [mergeDone, Bool.or_eq_true_iff, Bool.not_eq_true',
        decide_eq_false_iff_not] at hdone
      rcases hdone with hdone | hdone
      · exact h7 hdone
      · omega
    subst hV hF hR
    refine ⟨by simp [List.length_append]; omega, List.getLast?_concat _,
      by simp [List.length_append]; omega, List.getLast?_concat _⟩

/-- Witness for the amended claim C9 at the spec's worked example: the
merge over `[0,6)` of `"abcdef"` with the single substitution
`([1,3), "X")` yields `n + 1 = 7` forward entries with sentinel 5 and
6 reverse entries with sentinel 6. -/
theorem c9_amended_witness :
    ([0, 1, 1, 2, 3, 4, 5] : List Nat).length = 6 + 1 ∧
    ([0, 1, 1, 2, 3, 4, 5] : List Nat).getLast? = some "aXdef".data.length ∧
    ([0, 1, 3, 4, 5, 6] : List Nat).length = "aXdef".data.length + 1 ∧
    ([0, 1, 3, 4, 5, 6] : List Nat).getLast? = some 6 :=
  c9_amended c1doc 0 6 32 "aXdef".data [0, 1, 1, 2, 3, 4, 5] [0, 1, 3, 4, 5, 6]
    (by decide) (by decide)
    (by
      rw [show mergedSubs c1doc.conceal 0 6 = [((1, 3), "X".data)] from by decide]
      exact List.chain'_singleton _)
    (by decide)

/-- The highlighting projection has one entry per view-text position. -/
lemma computeHighlighting_length (doc : Doc) (t : Str) (r : List Nat) :
    (computeHighlighting doc t r).length = t.length := by
  simp [computeHighlighting]

/-- Entry `i` of the highlighting projection is the document tag at the
reverse-mapped original position, defaulting to the empty string. -/
lemma computeHighlighting_get? (doc : Doc) (t : Str) (r : List Nat) (i : Nat)
    (hi : i < t.length) :
    (computeHighlighting doc t r).get? i =
      some ((doc.highlighting (r.getD i 0)).getD []) := by
  unfold computeHighlighting
  rw [List.get?_map, List.get?_range hi]
  rfl

/-- Claim C10.  For every view the screen-mode construction completes, the
highlighting projection has length exactly the view-text length, and the
tag at each view position `i` is the document's highlighting entry at the
reverse-mapped original position when present, and empty otherwise. -/
theorem c10_highlighting (doc : Doc) (w h offset fuel ofuel : Nat) (v : View)
    (hrun : forScreen doc w h offset fuel ofuel = some (.ok v)) :
    v.highlighting.length = v.text.length ∧
    ∀ i, i < v.text.length →
      v.highlighting.get? i = some ((doc.highlighting (v.rev.getD i 0)).getD []) := by
  unfold forScreen at hrun
  split_ifs at hrun with h1
  · simp at hrun
  · cases hst : computeScreenText doc w h offset fuel ofuel with
    | none => rw [hst] at hrun; cases hrun
    | some r =>
      rw [hst] at hrun
      cases r with
      | error e => simp at hrun
      | ok tfr =>
        simp only [Option.some.injEq] at hrun
        unfold buildView at hrun
        cases hcs : computeSelection doc offset tfr.1 tfr.2.1 tfr.2.2 with
        | error e => simp only [hcs] at hrun; cases hrun
        | ok selv =>
          simp only [hcs] at hrun
          split_ifs at hrun with hpost
          injection hrun with hrun
          subst hrun
          refine ⟨computeHighlighting_length doc tfr.1 tfr.2.2, ?_⟩
          intro i hi
          exact computeHighlighting_get? doc tfr.1 tfr.2.2 i hi

/-- Witness for claim C10 at the spec's highlighting example: document
highlighting `(1 ↦ "kw")` under the `([1,3), "X")` substitution projects
to `["", "kw", "", "", ""]` for view text `"aXdef"`. -/
theorem c10_highlighting_witness :
    c10view.highlighting.length = c10view.text.length ∧
    ∀ i, i < c10view.text.length →
      c10view.highlighting.get? i =
        some ((c10doc.highlighting (c10view.rev.getD i 0)).getD []) :=
  c10_highlighting c10doc 10 1 0 32 16 c10view (by decide)

end Fate
